import Mathlib

/-!
Verification of the stunts driving-game simulation core against its
natural-language specification.  The TypeScript source is shallowly embedded:
JavaScript numbers are modelled as real numbers, mutable per-tick updates as
pure state-passing functions, and the mutating `step` (which deep-clones the
world via JSON round-trip and then mutates the clone in place) additionally as
an explicit heap of body cells so that the no-mutation-of-the-argument claim
is a real statement about addresses.
-/

noncomputable section

namespace Stunts

/-- JavaScript Math.sign: 1 for positive, -1 for negative, 0 for zero. -/
def jsSign (x : ℝ) : ℝ := if 0 < x then 1 else if x < 0 then -1 else 0

/-! ## Schema (src/unnamed/part_002)

`Input`, `Vector2`, `PhysicalBody`, `WorldState` and the interpolation
helpers `lerp`, `lerpAngle`, `lerpBody`, `interpolateState`, translated
field by field.  The optional JS `id?: number` becomes `Option ℕ`. -/

structure Input where
  accel : ℝ
  steer : ℝ
  handbrake : Bool

structure Vector2 where
  x : ℝ
  y : ℝ

structure PhysicalBody where
  id : Option ℕ
  x : ℝ
  y : ℝ
  z : ℝ
  velocity : Vector2
  vz : ℝ
  angle : ℝ
  angularVelocity : ℝ
  pitch : ℝ
  vPitch : ℝ
  roll : ℝ
  vRoll : ℝ
  steer : ℝ
  skidding : Bool

structure WorldState where
  players : List PhysicalBody

def lerp (a b t : ℝ) : ℝ := a + (b - a) * t

/-- Source: `const wrapped = diff - Math.floor(diff / (Math.PI * 2) + 0.5) * (Math.PI * 2)`. -/
def lerpAngle (a b t : ℝ) : ℝ :=
  let diff := b - a
  let wrapped := diff - (⌊diff / (Real.pi * 2) + 0.5⌋ : ℤ) * (Real.pi * 2)
  a + wrapped * t

def lerpBody (a b : PhysicalBody) (t : ℝ) : PhysicalBody where
  id := b.id
  x := lerp a.x b.x t
  y := lerp a.y b.y t
  z := lerp a.z b.z t
  angle := lerpAngle a.angle b.angle t
  pitch := lerpAngle a.pitch b.pitch t
  roll := lerpAngle a.roll b.roll t
  velocity := ⟨lerp a.velocity.x b.velocity.x t, lerp a.velocity.y b.velocity.y t⟩
  vz := lerp a.vz b.vz t
  angularVelocity := lerp a.angularVelocity b.angularVelocity t
  vPitch := lerp a.vPitch b.vPitch t
  vRoll := lerp a.vRoll b.vRoll t
  steer := lerp a.steer b.steer t
  skidding := b.skidding

/-- Source: players of `a` mapped over; a missing partner in `b` keeps `pA`. -/
def interpolateState (a b : WorldState) (t : ℝ) : WorldState :=
  ⟨a.players.mapIdx fun i pA =>
    match b.players[i]? with
    | none => pA
    | some pB => lerpBody pA pB t⟩

/-- The neutral input a slot falls back to before its first INPUT arrives
(`inputs[i] || { accel: 0, steer: 0, handbrake: false }`). -/
def neutralInput : Input := ⟨0, 0, false⟩

/-! ## Track (src/src/shared/Track.ts, second revision)

The 30x30 tile grid with a (TRACK_SIZE+1)^2 vertex height map.  The JS
backing arrays are modelled as total maps; `getTile` / `getVertexHeight`
perform exactly the source's bounds checks on top of them, which is all the
terrain-query claims depend on. -/

def TILE_SIZE : ℝ := 10

def TRACK_SIZE : ℤ := 30

inductive TileType where
  | grass
  | road
  | roadTurn
  | roadIntersection
  | start
  | finish
  | dirt
  | sand
  | water
  | snow
deriving DecidableEq

structure TrackTile where
  type : TileType
  height : ℝ
  orientation : ℕ

structure Track where
  tiles : ℤ → ℤ → TrackTile
  heightMap : ℤ → ℝ

/-- Source: out-of-range vertex indices read as height 0. -/
def Track.getVertexHeight (t : Track) (vx vy : ℤ) : ℝ :=
  if vx < 0 ∨ vx > TRACK_SIZE ∨ vy < 0 ∨ vy > TRACK_SIZE then 0
  else t.heightMap (vx * (TRACK_SIZE + 1) + vy)

/-- Source: null for out-of-range tile indices. -/
def Track.getTile (t : Track) (x y : ℤ) : Option TrackTile :=
  if 0 ≤ x ∧ x < TRACK_SIZE ∧ 0 ≤ y ∧ y < TRACK_SIZE then some (t.tiles x y) else none

structure CornerHeights where
  nw : ℝ
  ne : ℝ
  se : ℝ
  sw : ℝ

def Track.getTileCornerHeights (t : Track) (x y : ℤ) : CornerHeights :=
  ⟨t.getVertexHeight x y, t.getVertexHeight (x + 1) y,
    t.getVertexHeight (x + 1) (y + 1), t.getVertexHeight x (y + 1)⟩

/-! ## Vehicle physics (src/src/core/Physics.ts) -/

inductive DriveTrain where
  | FWD
  | RWD
  | AWD
deriving DecidableEq

structure VehicleConfig where
  mass : ℝ
  wheelBase : ℝ
  trackWidth : ℝ
  suspensionRestLength : ℝ
  suspensionStiffness : ℝ
  suspensionDamping : ℝ
  wheelRadius : ℝ
  frictionCoeff : ℝ
  engineForce : ℝ
  brakeForce : ℝ
  eBrakeForce : ℝ
  maxSteer : ℝ
  driveTrain : DriveTrain
  drag : ℝ

def CAR_CFG : VehicleConfig where
  mass := 1200
  wheelBase := 2.5
  trackWidth := 1.6
  suspensionRestLength := 0.6
  suspensionStiffness := 25000
  suspensionDamping := 2000
  wheelRadius := 0.35
  frictionCoeff := 2.5
  engineForce := 18000
  brakeForce := 12000
  eBrakeForce := 6000
  maxSteer := 0.6
  driveTrain := DriveTrain.RWD
  drag := 1.5

namespace PhysicsEngine

/-- PhysicsEngine.getHeightAt: bilinear interpolation over the tile corner
heights; 0 with no track; -100 outside tile indices [0,100)x[0,100). -/
def getHeightAt (worldX worldY : ℝ) (track : Option Track) : ℝ :=
  match track with
  | none => 0
  | some t =>
    let x := worldX / TILE_SIZE
    let y := worldY / TILE_SIZE
    let tx : ℤ := ⌊x⌋
    let ty : ℤ := ⌊y⌋
    let u := x - tx
    let v := y - ty
    if tx < 0 ∨ ty < 0 ∨ 100 ≤ tx ∨ 100 ≤ ty then -100
    else
      let corners := t.getTileCornerHeights tx ty
      let hTop := corners.nw * (1 - u) + corners.ne * u
      let hBot := corners.sw * (1 - u) + corners.se * u
      hTop * (1 - v) + hBot * v

/-- PhysicsEngine.getSurfaceFriction: 1.0 with no track; 0.5 for negative
tile indices or a null tile; otherwise by tile type. -/
def getSurfaceFriction (worldX worldY : ℝ) (track : Option Track) : ℝ :=
  match track with
  | none => 1.0
  | some t =>
    let tx : ℤ := ⌊worldX / TILE_SIZE⌋
    let ty : ℤ := ⌊worldY / TILE_SIZE⌋
    if tx < 0 ∨ ty < 0 then 0.5
    else
      match t.getTile tx ty with
      | none => 0.5
      | some tile =>
        match tile.type with
        | TileType.grass => 0.4
        | TileType.road => 2.5
        | TileType.start => 2.5
        | TileType.finish => 2.5
        | _ => 0.5

/-- One entry of the `wheels` array built in updatePlayer: local offset,
whether the wheel steers (front) and whether it is driven. -/
structure WheelSpec where
  lx : ℝ
  ly : ℝ
  steer : Bool
  drive : Bool

/-- The four wheel mount points FL, FR, RL, RR of updatePlayer. -/
def wheelList : List WheelSpec :=
  [⟨CAR_CFG.wheelBase / 2, CAR_CFG.trackWidth / 2, true,
      decide (CAR_CFG.driveTrain ≠ DriveTrain.RWD)⟩,
    ⟨CAR_CFG.wheelBase / 2, -(CAR_CFG.trackWidth / 2), true,
      decide (CAR_CFG.driveTrain ≠ DriveTrain.RWD)⟩,
    ⟨-(CAR_CFG.wheelBase / 2), CAR_CFG.trackWidth / 2, false,
      decide (CAR_CFG.driveTrain ≠ DriveTrain.FWD)⟩,
    ⟨-(CAR_CFG.wheelBase / 2), -(CAR_CFG.trackWidth / 2), false,
      decide (CAR_CFG.driveTrain ≠ DriveTrain.FWD)⟩]

/-- Everything one iteration of updatePlayer's wheel loop computes: the
force/torque contributions it accumulates, plus the intermediate tire
quantities (vertical load, friction ceiling, slip velocities, the force
components before and after the handbrake override and the friction-circle
clamp, and whether this wheel set the skid flag).  A wheel whose suspension
ray misses the ground (distToGround >= maxLength) contributes nothing. -/
structure WheelOut where
  contact : Bool
  suspForce : ℝ
  frictionLimit : ℝ
  velForward : ℝ
  velSide : ℝ
  latForce0 : ℝ
  longForce1 : ℝ
  latForce1 : ℝ
  longForce : ℝ
  latForce : ℝ
  fx : ℝ
  fy : ℝ
  tRoll : ℝ
  tPitch : ℝ
  tYaw : ℝ
  skid : Bool

def noContact : WheelOut := ⟨false, 0, 0, 0, 0, 0, 0, 0, 0, 0, 0, 0, 0, 0, 0, false⟩

/-- One iteration of the wheel loop of updatePlayer, translated line by
line.  `input.steer * maxSteer` stands for `body.steer`, which updatePlayer
assigns from the input before the loop runs. -/
def wheelCalc (b : PhysicalBody) (input : Input) (track : Option Track)
    (w : WheelSpec) : WheelOut :=
  let cy := Real.cos b.angle
  let sy := Real.sin b.angle
  let cp := Real.cos b.pitch
  let sp := Real.sin b.pitch
  let cr := Real.cos b.roll
  let sr := Real.sin b.roll
  let fwdX := cy * cp
  let fwdY := sy * cp
  let fwdZ := sp
  let rightX := -sy * cr + cy * sp * sr
  let rightY := cy * cr + sy * sp * sr
  let rightZ := -(cp * sr)
  let wx := b.x + fwdX * w.lx + rightX * w.ly
  let wy := b.y + fwdY * w.lx + rightY * w.ly
  let wz := b.z + fwdZ * w.lx + rightZ * w.ly
  let groundH := getHeightAt wx wy track
  let distToGround := wz - groundH
  let maxLength := CAR_CFG.suspensionRestLength + CAR_CFG.wheelRadius
  if distToGround < maxLength then
    let compression := maxLength - distToGround
    let springForce := CAR_CFG.suspensionStiffness * compression
    let pointVz := b.vz + b.vPitch * w.lx - b.vRoll * w.ly
    let damperForce := -CAR_CFG.suspensionDamping * pointVz
    let suspensionForce := springForce + damperForce
    let finalSuspForce := max 0 suspensionForce
    let rx := wx - b.x
    let ry := wy - b.y
    let patchVx := b.velocity.x - b.angularVelocity * ry
    let patchVy := b.velocity.y + b.angularVelocity * rx
    let steerAngle := if w.steer then input.steer * CAR_CFG.maxSteer else 0
    let wheelHeading := b.angle + steerAngle
    let wheelRx := Real.cos wheelHeading
    let wheelRy := Real.sin wheelHeading
    let wheelSx := -Real.sin wheelHeading
    let wheelSy := Real.cos wheelHeading
    let velForward := patchVx * wheelRx + patchVy * wheelRy
    let velSide := patchVx * wheelSx + patchVy * wheelSy
    let frictionLimit := finalSuspForce * getSurfaceFriction wx wy track * CAR_CFG.frictionCoeff
    let latForce0 := -velSide * CAR_CFG.mass * 10
    let latForceA := if |latForce0| > frictionLimit then jsSign latForce0 * frictionLimit
      else latForce0
    let longForce0 :=
      if 0 < input.accel ∧ w.drive = true then
        input.accel * (CAR_CFG.engineForce /
          (if CAR_CFG.driveTrain = DriveTrain.AWD then 4 else 2))
      else if input.accel < 0 then input.accel * (CAR_CFG.brakeForce / 4)
      else 0
    let longForce1 := if input.handbrake = true ∧ w.steer = false then
      -jsSign velForward * frictionLimit else longForce0
    let latForce1 := if input.handbrake = true ∧ w.steer = false then 0 else latForceA
    let totalForce := Real.sqrt (longForce1 ^ 2 + latForce1 ^ 2)
    let longForce := if totalForce > frictionLimit
      then longForce1 * (frictionLimit / totalForce) else longForce1
    let latForce := if totalForce > frictionLimit
      then latForce1 * (frictionLimit / totalForce) else latForce1
    let fx := longForce * wheelRx + latForce * wheelSx
    let fy := longForce * wheelRy + latForce * wheelSy
    { contact := true
      suspForce := finalSuspForce
      frictionLimit := frictionLimit
      velForward := velForward
      velSide := velSide
      latForce0 := latForce0
      longForce1 := longForce1
      latForce1 := latForce1
      longForce := longForce
      latForce := latForce
      fx := fx
      fy := fy
      tRoll := -(w.ly * finalSuspForce)
      tPitch := w.lx * finalSuspForce
      tYaw := rx * fy - ry * fx
      skid := if |latForce0| > frictionLimit ∨ (input.handbrake = true ∧ w.steer = false) ∨
          (totalForce > frictionLimit ∧ |velSide| > 1) then true else false }
  else noContact

/-- updatePlayer: runs the wheel loop, then integrates forces, drag, floor
collision, angular velocities, the airborne self-righting torque, and the
angles; finally writes the visual steer angle and the skid flag. -/
def updatePlayer (b : PhysicalBody) (input : Input) (dt : ℝ)
    (track : Option Track) : PhysicalBody :=
  let outs := wheelList.map (wheelCalc b input track)
  let wheelsOnGround := (outs.filter fun o => o.contact).length
  let isSkidding := outs.any fun o => o.skid
  let forceX := (outs.map fun o => o.fx).sum
  let forceY := (outs.map fun o => o.fy).sum
  let forceZ := -9.81 * CAR_CFG.mass * 2.5 + (outs.map fun o => o.suspForce).sum
  let torqueRoll := (outs.map fun o => o.tRoll).sum
  let torquePitch := (outs.map fun o => o.tPitch).sum
  let torqueYaw := (outs.map fun o => o.tYaw).sum
  let invMass := 1.0 / CAR_CFG.mass
  let vx1 := (b.velocity.x + forceX * invMass * dt) * (1 - 0.01)
  let vy1 := (b.velocity.y + forceY * invMass * dt) * (1 - 0.01)
  let vz1 := (b.vz + forceZ * invMass * dt) * (1 - 0.015)
  let x1 := b.x + vx1 * dt
  let y1 := b.y + vy1 * dt
  let z1 := b.z + vz1 * dt
  let centerAppsH := getHeightAt x1 y1 track
  let z2 := if z1 < centerAppsH + 0.2 then centerAppsH + 0.2 else z1
  let vz2 := if z1 < centerAppsH + 0.2 ∧ vz1 < 0 then -vz1 * 0.2 else vz1
  let Ixx := CAR_CFG.mass * CAR_CFG.trackWidth ^ 2 / 6
  let Iyy := CAR_CFG.mass * CAR_CFG.wheelBase ^ 2 / 6
  let Izz := CAR_CFG.mass * (CAR_CFG.wheelBase ^ 2 + CAR_CFG.trackWidth ^ 2) / 12
  let vRoll1 := (b.vRoll + torqueRoll / Ixx * dt) * 0.95
  let vPitch1 := (b.vPitch + torquePitch / Iyy * dt) * 0.95
  let angVel1 := (b.angularVelocity + torqueYaw / Izz * dt) * 0.95
  let vRoll2 := if wheelsOnGround = 0 then vRoll1 * 0.98 - b.roll * 2.0 * dt else vRoll1
  let vPitch2 := if wheelsOnGround = 0 then vPitch1 * 0.98 - b.pitch * 2.0 * dt else vPitch1
  { b with
    x := x1
    y := y1
    z := z2
    velocity := ⟨vx1, vy1⟩
    vz := vz2
    vRoll := vRoll2
    vPitch := vPitch2
    angularVelocity := angVel1
    roll := b.roll + vRoll2 * dt
    pitch := b.pitch + vPitch2 * dt
    angle := b.angle + angVel1 * dt
    steer := input.steer * CAR_CFG.maxSteer
    skidding := isSkidding }

/-- PhysicsEngine.step as a pure function: the JSON deep clone means the
result is built from fresh objects, so the functional value is the per-player
updatePlayer applied to the argument's players (missing inputs default to
neutral). -/
def step (state : WorldState) (inputs : List Input) (dt : ℝ)
    (track : Option Track) : WorldState :=
  ⟨state.players.mapIdx fun i p => updatePlayer p (inputs.getD i neutralInput) dt track⟩

end PhysicsEngine

/-! ## InputManager (src/unnamed/part_005, second document)

Only the keys and gamepad fields `getInput` consults are modelled: pressed
keys as a record of booleans, a gamepad as its two stick axes and the two
trigger button values.  The Schema revision this InputManager targets has no
handbrake field, so the returned handbrake is fixed to false. -/

structure Keys where
  arrowUp : Bool
  arrowDown : Bool
  arrowLeft : Bool
  arrowRight : Bool
  keyW : Bool
  keyS : Bool
  keyA : Bool
  keyD : Bool

structure GamepadState where
  axis0 : ℝ
  axis1 : ℝ
  button6 : ℝ
  button7 : ℝ

namespace InputManager

/-- InputManager.getInput: keyboard digital input for players 0 (arrows)
and 1 (WASD), additive gamepad stick/trigger input with a 0.1 deadzone, and
the final clamp of both components into [-1, 1]. -/
def getInput (playerIndex : ℕ) (keys : Keys) (pads : ℕ → Option GamepadState) : Input :=
  let accel0 : ℝ := if playerIndex = 0 then
    (if keys.arrowUp then 1 else 0) + (if keys.arrowDown then -1 else 0) else 0
  let steer0 : ℝ := if playerIndex = 0 then
    (if keys.arrowLeft then -1 else 0) + (if keys.arrowRight then 1 else 0) else 0
  let accel1 := accel0 + (if playerIndex = 1 then
    (if keys.keyW then 1 else 0) + (if keys.keyS then -1 else 0) else 0)
  let steer1 := steer0 + (if playerIndex = 1 then
    (if keys.keyA then -1 else 0) + (if keys.keyD then 1 else 0) else 0)
  let accel2 := match pads playerIndex with
    | none => accel1
    | some pad => accel1 + (if |pad.axis1| > 0.1 then -pad.axis1 else 0)
        + (if pad.button7 > 0 then pad.button7 else 0)
        - (if pad.button6 > 0 then pad.button6 else 0)
  let steer2 := match pads playerIndex with
    | none => steer1
    | some pad => steer1 + (if |pad.axis0| > 0.1 then pad.axis0 else 0)
  { accel := max (-1) (min 1 accel2)
    steer := max (-1) (min 1 steer2)
    handbrake := false }

end InputManager

/-! ## GameLoop (src/unnamed/part_006)

State-passing embedding: `tick` consumes the loop state and a timestamp and
yields the new state, the list of dt values passed to the update callback
(one entry per invocation) and the list of alpha values passed to the render
callback.  The source's while loop is `drainLoop`, fuel-based structural
recursion; `tick` hands it fuel that `drainLoop_floor_toNat` proves is
exactly the number of iterations the loop performs when timeStep > 0 (with
timeStep <= 0 the JS loop would simply never terminate). -/

structure GameLoop where
  lastTime : ℝ
  accumulator : ℝ
  running : Bool
  timeStep : ℝ

/-- The constructor: `this.timeStep = 1 / targetFps`. -/
def GameLoop.create (targetFps : ℝ) : GameLoop := ⟨0, 0, false, 1 / targetFps⟩

/-- GameLoop.start: record the current time, reset the accumulator, run. -/
def GameLoop.start (g : GameLoop) (now : ℝ) : GameLoop :=
  if g.running then g else { g with running := true, lastTime := now, accumulator := 0 }

/-- Source: `while (accumulator >= timeStep) { update(timeStep); accumulator -= timeStep }`. -/
def drainLoop (fuel : ℕ) (acc ts : ℝ) : ℝ × ℕ :=
  match fuel with
  | 0 => (acc, 0)
  | fuel + 1 =>
    if ts ≤ acc then
      let p := drainLoop fuel (acc - ts) ts
      (p.1, p.2 + 1)
    else (acc, 0)

/-- GameLoop.tick: nothing while stopped; otherwise clamp the elapsed wall
time to 0.25 s, accumulate, drain whole ticks through the update callback,
then render once with accumulator / timeStep. -/
def GameLoop.tick (g : GameLoop) (currentTime : ℝ) : GameLoop × List ℝ × List ℝ :=
  if g.running = false then (g, [], [])
  else
    let frameTime0 := (currentTime - g.lastTime) / 1000
    let frameTime := if frameTime0 > 0.25 then 0.25 else frameTime0
    let acc0 := g.accumulator + frameTime
    let p := drainLoop (⌊acc0 / g.timeStep⌋.toNat) acc0 g.timeStep
    ({ g with lastTime := currentTime, accumulator := p.1 },
      List.replicate p.2 g.timeStep, [p.1 / g.timeStep])

/-! ## Room (src/src/server/Room.ts, second revision)

Transports are identified by opaque numbers; sending is modelled by
returning the list of (transport, message) pairs a call emits.  Registering
the receive handler is modelled by the client record (keyed by the assigned
id, holding the transport) joining the clients map, which is exactly what
`handleMessage` later routes by.  The constructor also paints a figure-8
default track; no claim touches it, so the track field is omitted. -/

inductive ServerMsg where
  | welcome (playerId : ℕ) (initialState : WorldState)
  | stateMsg (worldState : WorldState)

structure RoomClient where
  id : ℕ
  transport : ℕ
  input : Input

structure Room where
  state : WorldState
  clients : List RoomClient
  nextClientId : ℕ

/-- The Room constructor: `createInitialState(0)` (zero players), no
clients, ids from 0. -/
def Room.init : Room := ⟨⟨[]⟩, [], 0⟩

/-- The body pushed for slot `id`: spawn at (150 + id*5, 150, 0.5). -/
def spawnBody (id : ℕ) : PhysicalBody where
  id := some id
  x := 150 + id * 5
  y := 150
  z := 0.5
  velocity := ⟨0, 0⟩
  vz := 0
  angle := 0
  angularVelocity := 0
  pitch := 0
  vPitch := 0
  roll := 0
  vRoll := 0
  steer := 0
  skidding := false

/-- Room.addClient: assign `nextClientId` (post-incrementing it), push a
spawn body if the players array is shorter than id+1, register the client
(with its transport and a neutral stored input), and send one WELCOME with
the assigned id and the current (post-push) world state.  Returns the new
room, the assigned id, and the sent messages. -/
def Room.addClient (r : Room) (transport : ℕ) : Room × ℕ × List (ℕ × ServerMsg) :=
  let id := r.nextClientId
  let players1 := if r.state.players.length < id + 1
    then r.state.players ++ [spawnBody id] else r.state.players
  let r1 : Room := ⟨⟨players1⟩, r.clients ++ [⟨id, transport, neutralInput⟩], id + 1⟩
  (r1, id, [(transport, ServerMsg.welcome id r1.state)])

/-- A sequence of addClient calls; returns the final room and the ids
assigned in order. -/
def Room.addClients (r : Room) (ts : List ℕ) : Room × List ℕ :=
  match ts with
  | [] => (r, [])
  | t :: rest =>
    let p := r.addClient t
    let q := p.1.addClients rest
    (q.1, p.2.1 :: q.2)

/-! ## Heap model of PhysicsEngine.step (src/src/core/Physics.ts)

`step` deep-clones its argument (`JSON.parse(JSON.stringify(state))`) and
then mutates each player object of the clone in place.  To state that the
argument is never mutated, bodies live in an addressed heap: the clone
allocates fresh cells at the end of the heap holding copies of the
argument's cells, and the forEach loop overwrites only those fresh cells. -/

structure BodyHeap where
  cells : List PhysicalBody

structure WorldStateRef where
  players : List ℕ

/-- The all-zero body used as the (never observed) fallback of heap reads. -/
def zeroBody : PhysicalBody :=
  ⟨none, 0, 0, 0, ⟨0, 0⟩, 0, 0, 0, 0, 0, 0, 0, 0, false⟩

namespace PhysicsEngine

/-- The JSON deep clone: one fresh cell per player, appended to the heap,
holding a structural copy of the referenced body. -/
def cloneStateRef (h : BodyHeap) (ws : WorldStateRef) : BodyHeap × WorldStateRef :=
  (⟨h.cells ++ ws.players.map fun r => h.cells.getD r zeroBody⟩,
    ⟨(List.range ws.players.length).map fun i => h.cells.length + i⟩)

/-- Source: `next.players.forEach((player, i) => this.updatePlayer(player, ...))`;
each referenced cell is overwritten in place with its updated value. -/
def mutateLoop (cells : List PhysicalBody) (refs : List ℕ) (inputs : List Input)
    (i : ℕ) (dt : ℝ) (track : Option Track) : List PhysicalBody :=
  match refs with
  | [] => cells
  | r :: rest =>
    mutateLoop
      (cells.set r (updatePlayer (cells.getD r zeroBody) (inputs.getD i neutralInput) dt track))
      rest inputs (i + 1) dt track

/-- PhysicsEngine.step over the heap: clone, then mutate the clone's cells. -/
def stepRef (h : BodyHeap) (ws : WorldStateRef) (inputs : List Input) (dt : ℝ)
    (track : Option Track) : BodyHeap × WorldStateRef :=
  let c := cloneStateRef h ws
  (⟨mutateLoop c.1.cells c.2.players inputs 0 dt track⟩, c.2)

end PhysicsEngine

/-! ## Client interpolation at render time (src/unnamed/part_000, third
document, the render callback of the game loop)

`renderPick` is the callback's choice of the state handed to the renderer,
as a function of the predicted state, the snapshot buffer, the target time
(now minus the interpolation delay) and the number of local players. -/

structure Snapshot where
  tick : ℕ
  time : ℝ
  state : WorldState

def emptySnapshot : Snapshot := ⟨0, 0, ⟨[]⟩⟩

/-- The bracketing scan: the first adjacent pair with
`updates[i].time <= renderTime && updates[i+1].time >= renderTime`. -/
def findBracket : List Snapshot → ℝ → Option (Snapshot × Snapshot)
  | a :: b :: rest, rt =>
    if a.time ≤ rt ∧ rt ≤ b.time then some (a, b) else findBracket (b :: rest) rt
  | _, _ => none

/-- The render callback's state choice.  With fewer than two snapshots the
predicted state is rendered as-is.  With a buffer, the two bracketing
snapshots default to the two oldest; if the target time is newer than the
newest snapshot the branch that would fall back to the latest snapshot is
commented out in the source, so the predicted state is rendered unchanged;
otherwise every slot below `numClients` shows the predicted body and every
other slot the interpolated one (the source indexes the predicted players
array directly, assuming it covers the local slots). -/
def renderPick (simState : WorldState) (serverUpdates : List Snapshot)
    (renderTime : ℝ) (numClients : ℕ) : WorldState :=
  if 2 ≤ serverUpdates.length then
    let prevNext := (findBracket serverUpdates renderTime).getD
      (serverUpdates.getD 0 emptySnapshot, serverUpdates.getD 1 emptySnapshot)
    if renderTime > (serverUpdates.getLast?.getD emptySnapshot).time then simState
    else
      let total := prevNext.2.time - prevNext.1.time
      let current := renderTime - prevNext.1.time
      let t := max 0 (min 1 (current / total))
      let interpolated := interpolateState prevNext.1.state prevNext.2.state t
      ⟨interpolated.players.mapIdx fun i p =>
        if i < numClients then simState.players.getD i p else p⟩
  else simState

/-! ## Concrete fixtures used by counterexamples and witnesses -/

/-- A track whose backing height map is 7 everywhere: inside the grid
every height query sees 7, so the 0 returned past the grid edge is the
out-of-range vertex fallback, not a low sentinel. -/
def bumpTrack : Track := ⟨fun _ _ => ⟨TileType.grass, 0, 0⟩, fun _ => 7⟩

/-- A body high above flat ground (angles and velocities zero): every wheel
raycast misses, so no wheel is in contact. -/
def airborneBody : PhysicalBody where
  id := none
  x := 0
  y := 0
  z := 100
  velocity := ⟨0, 0⟩
  vz := 0
  angle := 0
  angularVelocity := 0
  pitch := 0
  vPitch := 0
  roll := 0
  vRoll := 0
  steer := 0
  skidding := false

def handbrakeInput : Input := ⟨0, 0, true⟩

end Stunts

namespace Stunts

open PhysicsEngine

/-! ## Lemmas and theorems -/

lemma getSurfaceFriction_nonneg (worldX worldY : ℝ) (track : Option Track) :
    0 ≤ PhysicsEngine.getSurfaceFriction worldX worldY track := by
  unfold PhysicsEngine.getSurfaceFriction
  rcases track with _ | t
  · norm_num
  · dsimp only
    split
    · norm_num
    · split
      · norm_num
      · split <;> norm_num

lemma floor_500_div_tile : (⌊(500 : ℝ) / TILE_SIZE⌋ : ℤ) = 50 := by
  unfold TILE_SIZE
  norm_num

/-- C2 counterexample: the point (500, 500) lies outside the terrain grid
(tile index 50, beyond TRACK_SIZE = 30), yet getHeightAt returns 0 — the
bilinear blend of the out-of-range vertex fallback — not the very low
sentinel -100, even on a track whose interior heights are all 7. -/
theorem out_of_grid_height_cex :
    (30 : ℤ) ≤ ⌊(500 : ℝ) / TILE_SIZE⌋ ∧
    PhysicsEngine.getHeightAt 500 500 (some bumpTrack) = 0 ∧
    ((0 : ℝ) ≠ -100) ∧
    bumpTrack.getVertexHeight 10 10 = 7 := by
  refine ⟨by rw [floor_500_div_tile]; norm_num, ?_, by norm_num, ?_⟩
  · simp only [PhysicsEngine.getHeightAt, Track.getTileCornerHeights,
      Track.getVertexHeight, floor_500_div_tile, TRACK_SIZE]
    norm_num
  · simp only [Track.getVertexHeight, TRACK_SIZE]
    norm_num [bumpTrack]

/-- C2 amended: out-of-grid friction queries (tile index outside
[0, TRACK_SIZE) in either axis) do return the low value 0.5, and neither
query can fail; but the very low height sentinel -100 is only returned
outside tile indices [0,100)x[0,100) — the boundary check in getHeightAt
uses 100, not TRACK_SIZE = 30 — and between the 30-tile grid edge and
tile 100 the height query instead returns the bilinear blend of
out-of-range vertex heights, which read as 0 (so exactly 0 once every
corner is past the grid). -/
theorem out_of_grid_sentinels_amended (x y : ℝ) (t : Track) :
    ((⌊x / TILE_SIZE⌋ < 0 ∨ ⌊y / TILE_SIZE⌋ < 0 ∨
        TRACK_SIZE ≤ ⌊x / TILE_SIZE⌋ ∨ TRACK_SIZE ≤ ⌊y / TILE_SIZE⌋) →
      PhysicsEngine.getSurfaceFriction x y (some t) = 0.5) ∧
    ((⌊x / TILE_SIZE⌋ < 0 ∨ ⌊y / TILE_SIZE⌋ < 0 ∨
        100 ≤ ⌊x / TILE_SIZE⌋ ∨ 100 ≤ ⌊y / TILE_SIZE⌋) →
      PhysicsEngine.getHeightAt x y (some t) = -100) ∧
    (((31 ≤ ⌊x / TILE_SIZE⌋ ∧ ⌊x / TILE_SIZE⌋ < 100 ∧
        0 ≤ ⌊y / TILE_SIZE⌋ ∧ ⌊y / TILE_SIZE⌋ < 100) ∨
      (31 ≤ ⌊y / TILE_SIZE⌋ ∧ ⌊y / TILE_SIZE⌋ < 100 ∧
        0 ≤ ⌊x / TILE_SIZE⌋ ∧ ⌊x / TILE_SIZE⌋ < 100)) →
      PhysicsEngine.getHeightAt x y (some t) = 0) := by
  refine ⟨?_, ?_, ?_⟩
  · intro h
    simp only [PhysicsEngine.getSurfaceFriction]
    by_cases h1 : ⌊x / TILE_SIZE⌋ < 0 ∨ ⌊y / TILE_SIZE⌋ < 0
    · rw [if_pos h1]
    · rw [if_neg h1]
      push_neg at h1
      have hcond : ¬(0 ≤ ⌊x / TILE_SIZE⌋ ∧ ⌊x / TILE_SIZE⌋ < TRACK_SIZE ∧
          0 ≤ ⌊y / TILE_SIZE⌋ ∧ ⌊y / TILE_SIZE⌋ < TRACK_SIZE) := by
        rcases h with h | h | h | h
        · omega
        · omega
        · intro hc
          omega
        · intro hc
          omega
      rw [Track.getTile, if_neg hcond]
  · intro h
    simp only [PhysicsEngine.getHeightAt]
    rw [if_pos h]
  · intro h
    simp only [PhysicsEngine.getHeightAt]
    have hb : ¬(⌊x / TILE_SIZE⌋ < 0 ∨ ⌊y / TILE_SIZE⌋ < 0 ∨
        100 ≤ ⌊x / TILE_SIZE⌋ ∨ 100 ≤ ⌊y / TILE_SIZE⌋) := by
      rcases h with ⟨h1, h2, h3, h4⟩ | ⟨h1, h2, h3, h4⟩ <;> (push_neg; omega)
    rw [if_neg hb]
    have hcorner : ∀ vx vy : ℤ,
        (31 ≤ vx ∨ 31 ≤ vy) → t.getVertexHeight vx vy = 0 := by
      intro vx vy hv
      rw [Track.getVertexHeight, if_pos]
      unfold TRACK_SIZE
      omega
    rcases h with ⟨h1, h2, h3, h4⟩ | ⟨h1, h2, h3, h4⟩
    · simp only [Track.getTileCornerHeights]
      rw [hcorner ⌊x / TILE_SIZE⌋ ⌊y / TILE_SIZE⌋ (Or.inl h1),
        hcorner (⌊x / TILE_SIZE⌋ + 1) ⌊y / TILE_SIZE⌋ (Or.inl (by omega)),
        hcorner (⌊x / TILE_SIZE⌋ + 1) (⌊y / TILE_SIZE⌋ + 1) (Or.inl (by omega)),
        hcorner ⌊x / TILE_SIZE⌋ (⌊y / TILE_SIZE⌋ + 1) (Or.inl h1)]
      ring
    · simp only [Track.getTileCornerHeights]
      rw [hcorner ⌊x / TILE_SIZE⌋ ⌊y / TILE_SIZE⌋ (Or.inr h1),
        hcorner (⌊x / TILE_SIZE⌋ + 1) ⌊y / TILE_SIZE⌋ (Or.inr h1),
        hcorner (⌊x / TILE_SIZE⌋ + 1) (⌊y / TILE_SIZE⌋ + 1) (Or.inr (by omega)),
        hcorner ⌊x / TILE_SIZE⌋ (⌊y / TILE_SIZE⌋ + 1) (Or.inr (by omega))]
      ring

/-- C10: with no track argument every terrain height query returns exactly 0
and every surface friction query returns exactly 1.0 — the step simulates an
unbounded flat plane at height zero with uniform friction and never lacks
terrain data. -/
theorem no_track_flat_plane (x y : ℝ) :
    PhysicsEngine.getHeightAt x y none = 0 ∧
    PhysicsEngine.getSurfaceFriction x y none = 1.0 := by
  constructor <;> rfl

lemma lerpAngle_wrap_mem (a b : ℝ) :
    -Real.pi ≤ (b - a) - (⌊(b - a) / (Real.pi * 2) + 0.5⌋ : ℤ) * (Real.pi * 2) ∧
      (b - a) - (⌊(b - a) / (Real.pi * 2) + 0.5⌋ : ℤ) * (Real.pi * 2) < Real.pi := by
  have hpi : (0 : ℝ) < Real.pi * 2 := by positivity
  set q : ℝ := (b - a) / (Real.pi * 2) with hq
  have hbma : b - a = q * (Real.pi * 2) := by
    field_simp [hq]
  have h1 : (⌊q + 0.5⌋ : ℝ) ≤ q + 0.5 := Int.floor_le _
  have h2 : q + 0.5 < (⌊q + 0.5⌋ : ℝ) + 1 := Int.lt_floor_add_one _
  constructor
  · have : -(1/2 : ℝ) ≤ q - (⌊q + 0.5⌋ : ℤ) := by
      nlinarith
    calc -Real.pi = (-(1/2) : ℝ) * (Real.pi * 2) := by ring
    _ ≤ (q - (⌊q + 0.5⌋ : ℤ)) * (Real.pi * 2) := by
        apply mul_le_mul_of_nonneg_right this (le_of_lt hpi)
    _ = (b - a) - (⌊q + 0.5⌋ : ℤ) * (Real.pi * 2) := by rw [hbma]; ring
  · have : q - (⌊q + 0.5⌋ : ℤ) < (1/2 : ℝ) := by
      nlinarith
    calc (b - a) - (⌊q + 0.5⌋ : ℤ) * (Real.pi * 2)
        = (q - (⌊q + 0.5⌋ : ℤ)) * (Real.pi * 2) := by rw [hbma]; ring
    _ < (1/2 : ℝ) * (Real.pi * 2) := by
        apply mul_lt_mul_of_pos_right this hpi
    _ = Real.pi := by ring

lemma floor_six_div_two_pi : (⌊(6 : ℝ) / (Real.pi * 2) + 0.5⌋ : ℤ) = 1 := by
  have h3 : (3 : ℝ) < Real.pi := Real.pi_gt_three
  have h4 : Real.pi ≤ 4 := Real.pi_le_four
  have hpi : (0 : ℝ) < Real.pi * 2 := by positivity
  rw [Int.floor_eq_iff]
  constructor
  · push_cast
    rw [div_add' _ _ _ (ne_of_gt hpi), le_div_iff₀ hpi]
    nlinarith
  · push_cast
    rw [div_add' _ _ _ (ne_of_gt hpi), div_lt_iff₀ hpi]
    nlinarith

/-- C6: lerpAngle (used by lerpBody for the angle, pitch and roll fields)
interpolates along the shorter arc: the effective difference it applies is
the representative of b - a wrapped into [-pi, pi] (congruent to b - a
modulo 2*pi); interpolating from -3.0 to 3.0 radians at t = 0.5 yields
-pi, which is equivalent to pi modulo 2*pi, not 0. -/
theorem lerp_angle_shortest_arc (a b t : ℝ) (p q : PhysicalBody) :
    (∃ k : ℤ, lerpAngle a b t = a + ((b - a) - k * (2 * Real.pi)) * t ∧
      -Real.pi ≤ (b - a) - k * (2 * Real.pi) ∧
      (b - a) - k * (2 * Real.pi) < Real.pi) ∧
    (lerpBody p q t).angle = lerpAngle p.angle q.angle t ∧
    (lerpBody p q t).pitch = lerpAngle p.pitch q.pitch t ∧
    (lerpBody p q t).roll = lerpAngle p.roll q.roll t ∧
    lerpAngle (-3) 3 (1/2) = -Real.pi ∧
    (∃ k : ℤ, (-Real.pi) - Real.pi = k * (2 * Real.pi)) := by
  refine ⟨⟨⌊(b - a) / (Real.pi * 2) + 0.5⌋, ?_, ?_, ?_⟩, rfl, rfl, rfl, ?_, ⟨-1, by ring⟩⟩
  · unfold lerpAngle
    ring_nf
  · have h := (lerpAngle_wrap_mem a b).1
    calc -Real.pi ≤ (b - a) - (⌊(b - a) / (Real.pi * 2) + 0.5⌋ : ℤ) * (Real.pi * 2) := h
    _ = (b - a) - (⌊(b - a) / (Real.pi * 2) + 0.5⌋ : ℤ) * (2 * Real.pi) := by ring
  · have h := (lerpAngle_wrap_mem a b).2
    calc (b - a) - (⌊(b - a) / (Real.pi * 2) + 0.5⌋ : ℤ) * (2 * Real.pi)
        = (b - a) - (⌊(b - a) / (Real.pi * 2) + 0.5⌋ : ℤ) * (Real.pi * 2) := by ring
    _ < Real.pi := h
  · unfold lerpAngle
    have h6 : ((3 : ℝ) - (-3)) = 6 := by norm_num
    simp only [h6]
    rw [floor_six_div_two_pi]
    push_cast
    ring

/-! ### Friction circle (C1) and skid flag (C9) -/

lemma circle_clamp_le (A B L : ℝ) (hL : 0 ≤ L) :
    Real.sqrt
      ((if Real.sqrt (A ^ 2 + B ^ 2) > L then A * (L / Real.sqrt (A ^ 2 + B ^ 2)) else A) ^ 2 +
        (if Real.sqrt (A ^ 2 + B ^ 2) > L then B * (L / Real.sqrt (A ^ 2 + B ^ 2)) else B) ^ 2)
      ≤ L := by
  by_cases h : Real.sqrt (A ^ 2 + B ^ 2) > L
  · rw [if_pos h, if_pos h]
    have hT : 0 < Real.sqrt (A ^ 2 + B ^ 2) := lt_of_le_of_lt hL h
    have hre : (A * (L / Real.sqrt (A ^ 2 + B ^ 2))) ^ 2 +
        (B * (L / Real.sqrt (A ^ 2 + B ^ 2))) ^ 2
        = (L / Real.sqrt (A ^ 2 + B ^ 2)) ^ 2 * (A ^ 2 + B ^ 2) := by ring
    rw [hre, Real.sqrt_mul (sq_nonneg _), Real.sqrt_sq (by positivity)]
    rw [div_mul_cancel₀ _ (ne_of_gt hT)]
  · rw [if_neg h, if_neg h]
    push_neg at h
    exact h

/-- C1: for every body state, input (handbrake included), track and wheel,
after the combined-force clamp the tire force satisfies
sqrt(longitudinal^2 + lateral^2) <= frictionLimit, where frictionLimit is
the wheel's vertical load times the surface friction at the wheel position
times the global friction coefficient (zero for an airborne wheel, which
exerts no force); and whenever the unclamped magnitude exceeds the limit,
both components are multiplied by the same nonnegative factor
frictionLimit / unclampedMagnitude, preserving the force direction.  The
wheel loop of updatePlayer is exactly `wheelList.map (wheelCalc b input
track)`, so this covers every wheel of every step at any dt. -/
theorem friction_circle_clamp_bound (b : PhysicalBody) (input : Input)
    (track : Option Track) (w : WheelSpec) :
    Real.sqrt ((wheelCalc b input track w).longForce ^ 2 +
        (wheelCalc b input track w).latForce ^ 2) ≤
      (wheelCalc b input track w).frictionLimit ∧
    (Real.sqrt ((wheelCalc b input track w).longForce1 ^ 2 +
        (wheelCalc b input track w).latForce1 ^ 2) >
          (wheelCalc b input track w).frictionLimit →
      0 ≤ (wheelCalc b input track w).frictionLimit /
          Real.sqrt ((wheelCalc b input track w).longForce1 ^ 2 +
            (wheelCalc b input track w).latForce1 ^ 2) ∧
      (wheelCalc b input track w).longForce =
        (wheelCalc b input track w).longForce1 *
          ((wheelCalc b input track w).frictionLimit /
            Real.sqrt ((wheelCalc b input track w).longForce1 ^ 2 +
              (wheelCalc b input track w).latForce1 ^ 2)) ∧
      (wheelCalc b input track w).latForce =
        (wheelCalc b input track w).latForce1 *
          ((wheelCalc b input track w).frictionLimit /
            Real.sqrt ((wheelCalc b input track w).longForce1 ^ 2 +
              (wheelCalc b input track w).latForce1 ^ 2))) := by
  simp only [wheelCalc]
  split
  · dsimp only
    have hL : 0 ≤ max 0 (CAR_CFG.suspensionStiffness *
          (CAR_CFG.suspensionRestLength + CAR_CFG.wheelRadius -
            (b.z + Real.sin b.pitch * w.lx + -(Real.cos b.pitch * Real.sin b.roll) * w.ly -
              getHeightAt
                (b.x + Real.cos b.angle * Real.cos b.pitch * w.lx +
                  (-Real.sin b.angle * Real.cos b.roll +
                    Real.cos b.angle * Real.sin b.pitch * Real.sin b.roll) * w.ly)
                (b.y + Real.sin b.angle * Real.cos b.pitch * w.lx +
                  (Real.cos b.angle * Real.cos b.roll +
                    Real.sin b.angle * Real.sin b.pitch * Real.sin b.roll) * w.ly)
                track)) +
          -CAR_CFG.suspensionDamping * (b.vz + b.vPitch * w.lx - b.vRoll * w.ly)) *
        getSurfaceFriction
          (b.x + Real.cos b.angle * Real.cos b.pitch * w.lx +
            (-Real.sin b.angle * Real.cos b.roll +
              Real.cos b.angle * Real.sin b.pitch * Real.sin b.roll) * w.ly)
          (b.y + Real.sin b.angle * Real.cos b.pitch * w.lx +
            (Real.cos b.angle * Real.cos b.roll +
              Real.sin b.angle * Real.sin b.pitch * Real.sin b.roll) * w.ly)
          track * CAR_CFG.frictionCoeff := by
      apply mul_nonneg (mul_nonneg (le_max_left 0 _) (getSurfaceFriction_nonneg _ _ _))
      norm_num [CAR_CFG]
    refine ⟨circle_clamp_le _ _ _ hL, fun h => ?_⟩
    rw [if_pos h, if_pos h]
    exact ⟨div_nonneg hL (Real.sqrt_nonneg _), rfl, rfl⟩
  · simp only [noContact]
    constructor
    · norm_num
    · intro h
      norm_num at h

lemma bool_if_true_iff (c : Prop) [Decidable c] :
    ((if c then true else false) = true ↔ (true = true ∧ c)) := by
  by_cases h : c <;> simp [h]

/-- The per-wheel skid flag holds exactly when the wheel is in contact and
either the lateral force hit the lateral cap, or the handbrake acts on this
(rear) wheel, or the friction-circle clamp fired while the sideways slip
speed exceeds 1. -/
lemma wheelCalc_skid_iff (b : PhysicalBody) (input : Input)
    (track : Option Track) (w : WheelSpec) :
    (wheelCalc b input track w).skid = true ↔
      ((wheelCalc b input track w).contact = true ∧
        (|(wheelCalc b input track w).latForce0| >
            (wheelCalc b input track w).frictionLimit ∨
          (input.handbrake = true ∧ w.steer = false) ∨
          (Real.sqrt ((wheelCalc b input track w).longForce1 ^ 2 +
              (wheelCalc b input track w).latForce1 ^ 2) >
              (wheelCalc b input track w).frictionLimit ∧
            |(wheelCalc b input track w).velSide| > 1))) := by
  simp only [wheelCalc]
  split
  · dsimp only
    exact bool_if_true_iff _
  · simp only [noContact]
    simp

lemma updatePlayer_skidding (b : PhysicalBody) (input : Input) (dt : ℝ)
    (track : Option Track) :
    (updatePlayer b input dt track).skidding
      = (wheelList.map (wheelCalc b input track)).any fun o => o.skid := rfl

/-- C9 amended: after one updatePlayer call the skid indicator is true iff
some wheel of the wheel list is in ground contact and was friction-limited
there — its lateral force hit the lateral cap, or the friction-circle clamp
fired while its sideways slip speed exceeds 1 — or the handbrake acted on
it (handbrake held and the wheel a non-steering rear wheel in contact).
In particular handbrake alone does not set the flag for a fully airborne
body, and a friction-circle clamp at sideways slip <= 1 does not either. -/
theorem skid_flag_amended (b : PhysicalBody) (input : Input) (dt : ℝ)
    (track : Option Track) :
    (updatePlayer b input dt track).skidding = true ↔
      ∃ w ∈ wheelList, (wheelCalc b input track w).contact = true ∧
        (|(wheelCalc b input track w).latForce0| >
            (wheelCalc b input track w).frictionLimit ∨
          (input.handbrake = true ∧ w.steer = false) ∨
          (Real.sqrt ((wheelCalc b input track w).longForce1 ^ 2 +
              (wheelCalc b input track w).latForce1 ^ 2) >
              (wheelCalc b input track w).frictionLimit ∧
            |(wheelCalc b input track w).velSide| > 1)) := by
  rw [updatePlayer_skidding, List.any_eq_true]
  constructor
  · rintro ⟨o, ho, hskid⟩
    obtain ⟨w, hw, rfl⟩ := List.mem_map.1 ho
    exact ⟨w, hw, (wheelCalc_skid_iff b input track w).1 hskid⟩
  · rintro ⟨w, hw, hcond⟩
    exact ⟨wheelCalc b input track w, List.mem_map_of_mem _ hw,
      (wheelCalc_skid_iff b input track w).2 hcond⟩

/-- C9 counterexample: a fully airborne body with the handbrake held comes
out of the physics step with skidding = false, although the claim demands
the skid indicator be true whenever the handbrake input is held. -/
theorem skid_flag_cex :
    handbrakeInput.handbrake = true ∧
    (updatePlayer airborneBody handbrakeInput (1 / 60) none).skidding = false := by
  refine ⟨rfl, ?_⟩
  have hnc : ∀ w : WheelSpec, wheelCalc airborneBody handbrakeInput none w = noContact := by
    intro w
    simp only [wheelCalc]
    split
    · rename_i h
      exfalso
      simp only [airborneBody, getHeightAt, CAR_CFG, Real.sin_zero, Real.cos_zero] at h
      norm_num at h
    · rfl
  rw [updatePlayer_skidding, List.any_eq_false]
  intro o ho
  obtain ⟨w, hw, rfl⟩ := List.mem_map.1 ho
  simp [hnc w, noContact]

/-! ### Input clamping (C4) -/

/-- C4 counterexample: the Vehicle Physics Step does not clamp its input.
Stepping a one-player world with steer = 2 puts steer angle 1.2 into the
resulting body, while the componentwise-clamped input (steer = 1) yields
0.6: the two resulting states differ, so the step is not invariant under
pre-clamping. -/
theorem input_clamp_cex :
    (PhysicsEngine.step ⟨[airborneBody]⟩ [⟨0, 2, false⟩] (1 / 60) none).players.map
        (fun p => p.steer) = [1.2] ∧
    (PhysicsEngine.step ⟨[airborneBody]⟩ [⟨0, 1, false⟩] (1 / 60) none).players.map
        (fun p => p.steer) = [0.6] ∧
    ((1.2 : ℝ) ≠ 0.6) := by
  have key : ∀ inp : Input,
      (PhysicsEngine.step ⟨[airborneBody]⟩ [inp] (1 / 60) none).players.map
        (fun p => p.steer) = [inp.steer * CAR_CFG.maxSteer] := fun _ => rfl
  refine ⟨?_, ?_, by norm_num⟩
  · rw [key]
    norm_num [CAR_CFG]
  · rw [key]
    norm_num [CAR_CFG]

/-- C4 amended: input components are clamped to [-1, 1] where inputs are
produced — the last thing InputManager.getInput does before returning is
clamp both accel and steer into [-1, 1] — but the Physics Step itself
consumes its Input argument unclamped (see the counterexample). -/
theorem get_input_clamped_amended (playerIndex : ℕ) (keys : Keys)
    (pads : ℕ → Option GamepadState) :
    -1 ≤ (InputManager.getInput playerIndex keys pads).accel ∧
    (InputManager.getInput playerIndex keys pads).accel ≤ 1 ∧
    -1 ≤ (InputManager.getInput playerIndex keys pads).steer ∧
    (InputManager.getInput playerIndex keys pads).steer ≤ 1 := by
  refine ⟨?_, ?_, ?_, ?_⟩ <;> simp only [InputManager.getInput]
  · exact le_max_left _ _
  · exact max_le (by norm_num) (min_le_left _ _)
  · exact le_max_left _ _
  · exact max_le (by norm_num) (min_le_left _ _)

/-! ### Step never mutates its argument (C5) -/

lemma list_getD_set_ne {α : Type} (l : List α) (i j : ℕ) (a d : α) (h : i ≠ j) :
    (l.set i a).getD j d = l.getD j d := by
  simp [List.getD_eq_getElem?_getD, List.getElem?_set_ne h]

lemma list_getD_set_self {α : Type} (l : List α) (i : ℕ) (a d : α) (h : i < l.length) :
    (l.set i a).getD i d = a := by
  simp [List.getD_eq_getElem?_getD, List.getElem?_set_self', h]

lemma list_getD_mem {α : Type} (l : List α) (k : ℕ) (d : α) (h : k < l.length) :
    l.getD k d ∈ l := by
  rw [List.getD_eq_getElem?_getD, List.getElem?_eq_getElem h]
  simp

lemma list_getD_map {α β : Type} (l : List α) (f : α → β) (i : ℕ) (d : β) (d0 : α)
    (h : i < l.length) : (l.map f).getD i d = f (l.getD i d0) := by
  rw [List.getD_eq_getElem?_getD, List.getElem?_map, List.getElem?_eq_getElem h,
    List.getD_eq_getElem?_getD, List.getElem?_eq_getElem h]
  rfl

lemma list_getD_append_left {α : Type} (l l2 : List α) (i : ℕ) (d : α)
    (h : i < l.length) : (l ++ l2).getD i d = l.getD i d := by
  simp [List.getD_eq_getElem?_getD, List.getElem?_append_left h]

lemma list_getD_append_right {α : Type} (l l2 : List α) (i : ℕ) (d : α)
    (h : l.length ≤ i) : (l ++ l2).getD i d = l2.getD (i - l.length) d := by
  simp [List.getD_eq_getElem?_getD, List.getElem?_append_right h]

lemma mutateLoop_getD_untouched (refs : List ℕ) (inputs : List Input)
    (cells : List PhysicalBody) (i : ℕ) (dt : ℝ) (track : Option Track)
    (j : ℕ) (h : ∀ r ∈ refs, j ≠ r) :
    (mutateLoop cells refs inputs i dt track).getD j zeroBody = cells.getD j zeroBody := by
  induction refs generalizing cells i with
  | nil => rfl
  | cons r rest ih =>
    rw [mutateLoop]
    rw [ih _ _ fun s hs => h s (List.mem_cons_of_mem _ hs)]
    exact list_getD_set_ne _ _ _ _ _ (Ne.symm (h r (List.mem_cons_self _ _)))

lemma mutateLoop_getD_hit (inputs : List Input) (dt : ℝ) (track : Option Track) :
    ∀ (refs : List ℕ) (cells : List PhysicalBody) (i k : ℕ), refs.Nodup →
      (∀ r ∈ refs, r < cells.length) → k < refs.length →
      (mutateLoop cells refs inputs i dt track).getD (refs.getD k 0) zeroBody
        = updatePlayer (cells.getD (refs.getD k 0) zeroBody)
            (inputs.getD (i + k) neutralInput) dt track := by
  intro refs
  induction refs with
  | nil =>
    intro cells i k _ _ hk
    exact absurd hk (by simp)
  | cons r rest ih =>
    intro cells i k hnodup hlt hk
    have hr : r ∉ rest := (List.nodup_cons.1 hnodup).1
    rcases k with _ | k
    · rw [show (r :: rest).getD 0 0 = r from rfl]
      rw [mutateLoop]
      rw [mutateLoop_getD_untouched rest inputs _ _ _ _ r
        fun s hs => fun hrs => hr (hrs ▸ hs)]
      rw [list_getD_set_self _ _ _ _ (hlt r (List.mem_cons_self _ _)), Nat.add_zero]
    · rw [show (r :: rest).getD (k + 1) 0 = rest.getD k 0 from rfl]
      have hklen : k < rest.length := by simpa using hk
      have hmem : rest.getD k 0 ∈ rest := list_getD_mem rest k 0 hklen
      have hne : r ≠ rest.getD k 0 := fun he => hr (he ▸ hmem)
      rw [mutateLoop]
      rw [ih (cells.set r _) (i + 1) k (List.nodup_cons.1 hnodup).2
        (fun s hs => by rw [List.length_set]; exact hlt s (List.mem_cons_of_mem _ hs))
        hklen]
      rw [show i + 1 + k = i + (k + 1) from by omega]
      congr 1
      exact list_getD_set_ne _ _ _ _ _ hne

/-- C5: the heap embedding of PhysicsEngine.step — deep clone, then mutate
the clone in place — never changes a cell of the argument state: every heap
address that existed before the call holds the same body afterwards, the
returned WorldState consists exclusively of freshly allocated addresses, one
per player of the argument, and the fresh cell for slot i holds exactly
updatePlayer applied to a copy of the argument's body for slot i.  So the
previous tick's state is never visible as mutated once the next tick
begins, and the new state is the per-player physics update of the old. -/
theorem step_preserves_argument_state (h : BodyHeap) (ws : WorldStateRef)
    (inputs : List Input) (dt : ℝ) (track : Option Track) :
    (∀ j : ℕ, j < h.cells.length →
      (stepRef h ws inputs dt track).1.cells.getD j zeroBody = h.cells.getD j zeroBody) ∧
    (∀ r ∈ (stepRef h ws inputs dt track).2.players, h.cells.length ≤ r) ∧
    (stepRef h ws inputs dt track).2.players.length = ws.players.length ∧
    (∀ i : ℕ, i < ws.players.length →
      (stepRef h ws inputs dt track).1.cells.getD (h.cells.length + i) zeroBody
        = updatePlayer (h.cells.getD (ws.players.getD i 0) zeroBody)
            (inputs.getD i neutralInput) dt track) := by
  refine ⟨?_, ?_, by simp [stepRef, cloneStateRef], ?_⟩
  · intro j hj
    show (mutateLoop (h.cells ++ ws.players.map fun r => h.cells.getD r zeroBody)
        ((List.range ws.players.length).map fun i => h.cells.length + i)
        inputs 0 dt track).getD j zeroBody = h.cells.getD j zeroBody
    rw [mutateLoop_getD_untouched]
    · exact list_getD_append_left _ _ _ _ hj
    · intro r hr
      obtain ⟨i, _, rfl⟩ := List.mem_map.1 hr
      omega
  · intro r hr
    obtain ⟨i, _, rfl⟩ := List.mem_map.1 hr
    omega
  · intro i hi
    show (mutateLoop (h.cells ++ ws.players.map fun r => h.cells.getD r zeroBody)
        ((List.range ws.players.length).map fun j => h.cells.length + j)
        inputs 0 dt track).getD (h.cells.length + i) zeroBody = _
    have hgetD : ((List.range ws.players.length).map fun j => h.cells.length + j).getD i 0
        = h.cells.length + i := by
      rw [list_getD_map _ _ _ _ 0 (by simpa using hi), List.getD_eq_getElem?_getD,
        List.getElem?_range hi]
      rfl
    have hkey := mutateLoop_getD_hit inputs dt track
      ((List.range ws.players.length).map fun j => h.cells.length + j)
      (h.cells ++ ws.players.map fun r => h.cells.getD r zeroBody) 0 i
      (List.Nodup.map (fun a b hab => by omega) (List.nodup_range _))
      (fun r hr => by
        obtain ⟨j, hj, rfl⟩ := List.mem_map.1 hr
        have := List.mem_range.1 hj
        simp
        omega)
      (by simpa using hi)
    rw [hgetD] at hkey
    rw [hkey, Nat.zero_add]
    congr 1
    rw [list_getD_append_right _ _ _ _ (by omega),
      show h.cells.length + i - h.cells.length = i from by omega]
    exact list_getD_map _ _ _ _ 0 hi

/-! ### Fixed-timestep loop (C7) -/

lemma drainLoop_floor_toNat (ts : ℝ) (hts : 0 < ts) (k : ℕ) :
    ∀ acc : ℝ, ⌊acc / ts⌋.toNat = k → drainLoop k acc ts = (acc - k * ts, k) := by
  induction k with
  | zero =>
    intro acc _
    show (acc, 0) = (acc - (0 : ℕ) * ts, 0)
    norm_num
  | succ k ih =>
    intro acc hk
    have hfloor : ⌊acc / ts⌋ = k + 1 := by omega
    have hge : ts ≤ acc := by
      have h1 : (1 : ℝ) ≤ acc / ts := by
        have : ((1 : ℤ) : ℝ) ≤ acc / ts := Int.le_floor.1 (by omega)
        exact_mod_cast this
      calc ts = 1 * ts := by ring
      _ ≤ acc / ts * ts := by
          apply mul_le_mul_of_nonneg_right h1 (le_of_lt hts)
      _ = acc := by field_simp
    have hnext : ⌊(acc - ts) / ts⌋.toNat = k := by
      have hd : (acc - ts) / ts = acc / ts - 1 := by
        field_simp
      rw [hd, Int.floor_sub_one]
      omega
    rw [drainLoop, if_pos hge, ih (acc - ts) hnext]
    dsimp only
    rw [Prod.mk.injEq]
    refine ⟨?_, rfl⟩
    push_cast
    ring

/-- C7: a tick of a running loop with a monotone timestamp clamps the
elapsed wall time to at most 0.25 s before adding it to the accumulator,
invokes the update callback exactly floor(accumulator / timeStep) times
(accumulator taken after the addition) — every invocation with the fixed
dt = 1/targetFps, never a wall-clock value — and then invokes the render
callback exactly once with accumulator / timeStep, which lies in [0, 1). -/
theorem game_loop_tick_spec (g : GameLoop) (currentTime fps : ℝ)
    (hrun : g.running = true) (hfps : 0 < fps) (hts : g.timeStep = 1 / fps)
    (hacc : 0 ≤ g.accumulator) (hmono : g.lastTime ≤ currentTime) :
    (GameLoop.tick g currentTime).2.1 =
      List.replicate
        (⌊(g.accumulator + min ((currentTime - g.lastTime) / 1000) 0.25) / g.timeStep⌋.toNat)
        (1 / fps) ∧
    (GameLoop.tick g currentTime).2.2 =
      [(GameLoop.tick g currentTime).1.accumulator / g.timeStep] ∧
    0 ≤ (GameLoop.tick g currentTime).1.accumulator / g.timeStep ∧
    (GameLoop.tick g currentTime).1.accumulator / g.timeStep < 1 := by
  have hts0 : 0 < g.timeStep := by
    rw [hts]
    positivity
  have hifmin : (if (currentTime - g.lastTime) / 1000 > 0.25 then (0.25 : ℝ)
      else (currentTime - g.lastTime) / 1000)
      = min ((currentTime - g.lastTime) / 1000) 0.25 := by
    rcases le_or_lt ((currentTime - g.lastTime) / 1000) 0.25 with hc | hc
    · rw [if_neg (not_lt.2 hc), min_eq_left hc]
    · rw [if_pos hc, min_eq_right (le_of_lt hc)]
  set acc0 : ℝ := g.accumulator + min ((currentTime - g.lastTime) / 1000) 0.25 with hacc0def
  have hacc0 : 0 ≤ acc0 := by
    apply add_nonneg hacc
    exact le_min (div_nonneg (by linarith) (by norm_num)) (by norm_num)
  have hfl0 : 0 ≤ ⌊acc0 / g.timeStep⌋ := Int.floor_nonneg.2 (div_nonneg hacc0 (le_of_lt hts0))
  have hcast : ((⌊acc0 / g.timeStep⌋.toNat : ℕ) : ℝ) = ((⌊acc0 / g.timeStep⌋ : ℤ) : ℝ) := by
    rw [show ((⌊acc0 / g.timeStep⌋.toNat : ℕ) : ℝ) = ((⌊acc0 / g.timeStep⌋.toNat : ℤ) : ℝ) by
      push_cast
      rfl]
    rw [Int.toNat_of_nonneg hfl0]
  have htick : GameLoop.tick g currentTime =
      ({ g with
          lastTime := currentTime
          accumulator := acc0 - (⌊acc0 / g.timeStep⌋.toNat : ℝ) * g.timeStep },
        List.replicate (⌊acc0 / g.timeStep⌋.toNat) g.timeStep,
        [(acc0 - (⌊acc0 / g.timeStep⌋.toNat : ℝ) * g.timeStep) / g.timeStep]) := by
    unfold GameLoop.tick
    rw [hrun, if_neg (by simp)]
    dsimp only
    rw [hifmin, ← hacc0def,
      drainLoop_floor_toNat g.timeStep hts0 (⌊acc0 / g.timeStep⌋.toNat) acc0 rfl]
  rw [htick]
  dsimp only
  have halpha : (acc0 - (⌊acc0 / g.timeStep⌋.toNat : ℝ) * g.timeStep) / g.timeStep
      = acc0 / g.timeStep - (⌊acc0 / g.timeStep⌋ : ℝ) := by
    rw [hcast]
    field_simp
    ring
  refine ⟨by rw [hts], rfl, ?_, ?_⟩
  · rw [halpha]
    have := Int.floor_le (acc0 / g.timeStep)
    linarith
  · rw [halpha]
    have := Int.lt_floor_add_one (acc0 / g.timeStep)
    linarith

/-- C7 witness: one tick of a freshly started 60 fps loop at timestamp
100 ms, through game_loop_tick_spec. -/
theorem game_loop_tick_spec_witness :
    (GameLoop.running ⟨0, 0, true, 1 / 60⟩ = true ∧ (0 : ℝ) < 60 ∧
      GameLoop.timeStep ⟨0, 0, true, 1 / 60⟩ = 1 / 60 ∧
      (0 : ℝ) ≤ GameLoop.accumulator ⟨0, 0, true, 1 / 60⟩ ∧
      GameLoop.lastTime ⟨0, 0, true, 1 / 60⟩ ≤ 100) ∧
    ((GameLoop.tick ⟨0, 0, true, 1 / 60⟩ 100).2.1 =
      List.replicate
        (⌊(GameLoop.accumulator ⟨0, 0, true, 1 / 60⟩ +
            min ((100 - GameLoop.lastTime ⟨0, 0, true, 1 / 60⟩) / 1000) 0.25) /
          GameLoop.timeStep ⟨0, 0, true, 1 / 60⟩⌋.toNat) (1 / 60) ∧
    (GameLoop.tick ⟨0, 0, true, 1 / 60⟩ 100).2.2 =
      [(GameLoop.tick ⟨0, 0, true, 1 / 60⟩ 100).1.accumulator /
        GameLoop.timeStep ⟨0, 0, true, 1 / 60⟩] ∧
    0 ≤ (GameLoop.tick ⟨0, 0, true, 1 / 60⟩ 100).1.accumulator /
        GameLoop.timeStep ⟨0, 0, true, 1 / 60⟩ ∧
    (GameLoop.tick ⟨0, 0, true, 1 / 60⟩ 100).1.accumulator /
        GameLoop.timeStep ⟨0, 0, true, 1 / 60⟩ < 1) :=
  ⟨⟨rfl, by norm_num, rfl, le_refl 0, by norm_num⟩,
    game_loop_tick_spec ⟨0, 0, true, 1 / 60⟩ 100 60 rfl (by norm_num) rfl
      (le_refl 0) (by norm_num)⟩

/-! ### Authoritative session: addClient (C8) -/

lemma addClients_ids (ts : List ℕ) :
    ∀ r : Room, (r.addClients ts).2 = List.range' r.nextClientId ts.length := by
  induction ts with
  | nil => intro r; rfl
  | cons t rest ih =>
    intro r
    show (r.addClient t).2.1 :: ((r.addClient t).1.addClients rest).2
      = List.range' r.nextClientId (rest.length + 1)
    rw [ih]
    rfl

/-- C8: addClient assigns id = nextClientId and bumps the counter, so a
sequence of addClient calls from the initial room hands out the sequential
ids 0, 1, 2, ... with no repetition; when the players array is shorter than
id+1 it grows by exactly one body at the spawn position (and is untouched
otherwise); the client record carrying the transport — the registration the
message handler routes by — joins the clients map; and exactly one message
is sent, a WELCOME on that transport carrying the assigned id and the
post-push world state. -/
theorem add_client_spec (r : Room) (tr : ℕ) :
    (r.addClient tr).2.1 = r.nextClientId ∧
    (r.addClient tr).1.nextClientId = r.nextClientId + 1 ∧
    (r.addClient tr).2.2 =
      [(tr, ServerMsg.welcome r.nextClientId (r.addClient tr).1.state)] ∧
    (r.state.players.length < r.nextClientId + 1 →
      (r.addClient tr).1.state.players = r.state.players ++ [spawnBody r.nextClientId]) ∧
    (¬r.state.players.length < r.nextClientId + 1 →
      (r.addClient tr).1.state.players = r.state.players) ∧
    (⟨r.nextClientId, tr, neutralInput⟩ : RoomClient) ∈ (r.addClient tr).1.clients ∧
    (∀ ts : List ℕ, (r.addClients ts).2 = List.range' r.nextClientId ts.length) ∧
    (∀ ts : List ℕ, (Room.addClients Room.init ts).2 = List.range ts.length) ∧
    (∀ ts : List ℕ, ((r.addClients ts).2).Nodup) := by
  refine ⟨rfl, rfl, rfl, ?_, ?_, ?_, fun ts => addClients_ids ts r, ?_, ?_⟩
  · intro hlt
    show (if r.state.players.length < r.nextClientId + 1
      then r.state.players ++ [spawnBody r.nextClientId] else r.state.players)
      = r.state.players ++ [spawnBody r.nextClientId]
    rw [if_pos hlt]
  · intro hge
    show (if r.state.players.length < r.nextClientId + 1
      then r.state.players ++ [spawnBody r.nextClientId] else r.state.players)
      = r.state.players
    rw [if_neg hge]
  · show (⟨r.nextClientId, tr, neutralInput⟩ : RoomClient) ∈
      r.clients ++ [⟨r.nextClientId, tr, neutralInput⟩]
    simp
  · intro ts
    rw [addClients_ids ts Room.init, List.range_eq_range' ts.length]
    rfl
  · intro ts
    rw [addClients_ids ts r]
    exact List.nodup_range' _ _ 1 (by norm_num)

/-! ### Render-time interpolation fallback (C3) -/

/-- C3 amended: when the interpolation target time is newer than the newest
buffered snapshot, the render callback does not fall back to the latest
snapshot — the fallback assignment is commented out in the source — and the
whole locally predicted state is rendered unchanged, for remote bodies too. -/
theorem interp_out_of_range_amended (simS : WorldState) (upds : List Snapshot)
    (rt : ℝ) (n : ℕ) (h2 : 2 ≤ upds.length)
    (hnew : rt > (upds.getLast?.getD emptySnapshot).time) :
    renderPick simS upds rt n = simS := by
  unfold renderPick
  rw [if_pos h2, if_pos hnew]

def cexSim : WorldState := ⟨[{ zeroBody with x := 42 }]⟩

def cexUpdates : List Snapshot :=
  [⟨0, 0, ⟨[{ zeroBody with x := 7 }]⟩⟩, ⟨0, 10, ⟨[{ zeroBody with x := 7 }]⟩⟩]

/-- C3 amended witness: the concrete buffer of interp_fallback_cex through
interp_out_of_range_amended. -/
theorem interp_out_of_range_amended_witness :
    (2 ≤ cexUpdates.length ∧
      (20 : ℝ) > (cexUpdates.getLast?.getD emptySnapshot).time) ∧
    renderPick cexSim cexUpdates 20 0 = cexSim :=
  ⟨⟨by norm_num [cexUpdates], by norm_num [cexUpdates]⟩,
    interp_out_of_range_amended cexSim cexUpdates 20 0 (by norm_num [cexUpdates])
      (by norm_num [cexUpdates])⟩

/-- C3 counterexample: with two buffered snapshots at times 0 and 10 whose
only body has x = 7 and a predicted state whose body has x = 42, rendering
at target time 20 (newer than the newest snapshot) yields the predicted
state — body x = 42 — not the latest snapshot's x = 7, although with
numClients = 0 that body counts as remote. -/
theorem interp_fallback_cex :
    renderPick cexSim cexUpdates 20 0 = cexSim ∧
    (cexUpdates.getLast?.getD emptySnapshot).time < 20 ∧
    (cexSim.players.map fun p => p.x) = [42] ∧
    ((cexUpdates.getLast?.getD emptySnapshot).state.players.map fun p => p.x) = [7] ∧
    ((42 : ℝ) ≠ 7) := by
  refine ⟨?_, by norm_num [cexUpdates], by norm_num [cexSim, zeroBody],
    by norm_num [cexUpdates, zeroBody], by norm_num⟩
  unfold renderPick
  rw [if_pos (by norm_num [cexUpdates]), if_pos (by norm_num [cexUpdates])]

end Stunts
